import Mathlib

/-!
Verification of the reconciliation engines in the syncer repository.

The development shallowly embeds the two sync modules:

* `Syncer.Contacts` models `carddav-google-contacts/sync.py`: the fingerprint
  functions, the vCard/Google conversions, the matching phase, the safety
  guard and the per-identifier reconciliation loop of `sync()`.  Parsed
  vCards and Google People API persons are represented as structured values
  (the `vobject`/JSON parsing round-trip is treated as the identity), remote
  calls are modelled by an oracle that supplies the values the remote would
  return (new etags, resource names, fresh UIDs), and every remote or
  database write is recorded in an event trace.
* `Syncer.Tasks` models `vtodo-notion/sync.py`: priority mapping, iCal
  generation, the per-page handler of `sync_notion_to_caldav`, and the
  retry / circuit-breaker wrapper `with_retry`.  The `dateutil` RRULE
  engine used by `next_rrule_occurrence` is abstracted as an oracle
  function returning the next occurrence, or `none` when the rule is
  exhausted or unparsable, exactly as the Python helper does.

Python strings are Lean `String`s; `str.strip`, `str.lower`, `str.replace`,
`sorted`, dict and set operations are given faithful executable models below.
-/

set_option maxRecDepth 100000

namespace Syncer

/-! ## Python string primitives -/

/-- Model of Python `str.strip()` on a character list: drop whitespace from
both ends. -/
def pyStripList (l : List Char) : List Char :=
  ((l.dropWhile Char.isWhitespace).reverse.dropWhile Char.isWhitespace).reverse

/-- Model of Python `str.strip()`. -/
def pyStrip (s : String) : String := ⟨pyStripList s.data⟩

/-- Model of Python `str.lower()` (ASCII case folding). -/
def pyLower (s : String) : String := ⟨s.data.map Char.toLower⟩

/-- Model of Python `str.upper()` (ASCII case folding). -/
def pyUpper (s : String) : String := ⟨s.data.map Char.toUpper⟩

/-- Model of Python `str.replace(pat, repl)`: leftmost, non-overlapping,
replace all occurrences.  The fuel argument is the length of the scanned
list; each step consumes at least one character when `pat` is nonempty. -/
def replaceAllList (pat repl : List Char) : Nat → List Char → List Char
  | 0, l => l
  | _ + 1, [] => []
  | fuel + 1, c :: rest =>
    if pat ≠ [] ∧ (c :: rest).take pat.length = pat then
      repl ++ replaceAllList pat repl fuel ((c :: rest).drop pat.length)
    else
      c :: replaceAllList pat repl fuel rest

/-- Model of Python `str.replace`. -/
def replaceAllStr (pat repl s : String) : String :=
  ⟨replaceAllList pat.data repl.data s.data.length s.data⟩

/-- Digits-only string to `Nat`; `none` when empty or a non-digit occurs
(models `int()` raising `ValueError`). -/
def digitsToNat (l : List Char) : Option Nat :=
  if l ≠ [] ∧ l.all Char.isDigit then
    some (l.foldl (fun a c => a * 10 + (c.toNat - 48)) 0)
  else none

/-- Model of Python `int(s)`: strip whitespace, optional sign, digits. -/
def pyParseInt (s : String) : Option Int :=
  match pyStripList s.data with
  | '+' :: rest => (digitsToNat rest).map Int.ofNat
  | '-' :: rest => (digitsToNat rest).map (fun n => -(n : Int))
  | rest => (digitsToNat rest).map Int.ofNat

/-- Model of Python `f"{n:0wd}"` for a natural number. -/
def padNat (w : Nat) (n : Nat) : String :=
  let s := Nat.repr n
  ⟨List.replicate (w - s.length) '0' ++ s.data⟩

/-- Model of Python `f"{i:0wd}"` for an integer (sign counts toward the
width, zeros are inserted after the sign). -/
def padInt (w : Nat) (i : Int) : String :=
  if i < 0 then "-" ++ padNat (w - 1) i.natAbs else padNat w i.toNat

/-- Model of `s.startswith(pre)`. -/
def strStartsWith (s pre : String) : Bool :=
  decide (s.data.take pre.data.length = pre.data)

/-- Code-point lexicographic strict order on character lists (the order
Python uses to compare strings). -/
def lexLt : List Char → List Char → Bool
  | [], [] => false
  | [], _ :: _ => true
  | _ :: _, [] => false
  | a :: as, b :: bs => if a < b then true else if b < a then false else lexLt as bs

/-- Python `a <= b` on strings. -/
def pyStrLe (a b : String) : Bool := !(lexLt b.data a.data)

/-- Model of Python `sorted` on strings (code-point lexicographic order). -/
def sortStrings (l : List String) : List String :=
  List.insertionSort (fun a b => pyStrLe a b = true) l

/-- The smaller of two strings in code-point order. -/
def pyMin (a b : String) : String := if pyStrLe a b then a else b

/-- Model of `s.split(sep)` for a single-character separator. -/
def splitOnChar (sep : Char) : List Char → List (List Char)
  | [] => [[]]
  | c :: rest =>
    let r := splitOnChar sep rest
    if c = sep then [] :: r
    else
      match r with
      | [] => [[c]]
      | h :: t => (c :: h) :: t

/-- Model of `xs[0] if xs else ""`. -/
def firstOrEmpty : List String → String
  | [] => ""
  | x :: _ => x

/-- The lexicographically lowest element of a list of strings, or `""` for
the empty list (spec-side formulation of `sorted(xs)[0]`). -/
def lowestString : List String → String
  | [] => ""
  | x :: xs => xs.foldl pyMin x

/-- Optional lowest element of a list of strings. -/
def lowestString? : List String → Option String
  | [] => none
  | x :: xs => some (xs.foldl pyMin x)

/-! ## Python dict / set model

Python dicts preserve insertion order; assignment to an existing key keeps
its position.  We model a dict as an association list with these exact
semantics. -/

/-- Association-list dictionary keyed by strings. -/
abbrev Dict (β : Type) : Type := List (String × β)

/-- Model of `d.get(k)` / `d[k]` lookup. -/
def dget {β : Type} : Dict β → String → Option β
  | [], _ => none
  | (k', v) :: t, k => if k' = k then some v else dget t k

/-- Model of `d[k] = v`: replace in place, or append when absent. -/
def dset {β : Type} : Dict β → String → β → Dict β
  | [], k, v => [(k, v)]
  | (k', v') :: t, k, v => if k' = k then (k, v) :: t else (k', v') :: dset t k v

/-- Model of `d[k] = v` only when `k` is absent (SQL `INSERT OR IGNORE`). -/
def dsetIfAbsent {β : Type} (d : Dict β) (k : String) (v : β) : Dict β :=
  match dget d k with
  | some _ => d
  | none => dset d k v

/-- Model of `del d[k]` / `d.pop(k, None)`. -/
def ddel {β : Type} (d : Dict β) (k : String) : Dict β :=
  d.filter (fun kv => kv.1 ≠ k)

/-- The key list of a dict, in insertion order. -/
def dkeys {β : Type} (d : Dict β) : List String := d.map Prod.fst

/-- Model of `k in d`. -/
def dmem {β : Type} (d : Dict β) (k : String) : Bool := (dget d k).isSome

/-- First-occurrence deduplication, used to model iteration over a set
union of key collections. -/
def dedupKeys (l : List String) : List String :=
  l.foldl (fun acc k => if k ∈ acc then acc else acc ++ [k]) []

namespace Contacts

/-! ## Data model of `carddav-google-contacts/sync.py` -/

/-- One entry of a Google person's `names` list (`.get` defaults of `""`
are baked into the fields). -/
structure GName where
  displayName : String
  familyName : String
  givenName : String
deriving DecidableEq

/-- One entry of `emailAddresses`; `etype` is the optional `type` key
(`e.get("type", "home")` supplies the default at use sites). -/
structure GEmail where
  value : String
  etype : Option String
deriving DecidableEq

/-- One entry of `phoneNumbers`. -/
structure GPhone where
  value : String
  ptype : Option String
deriving DecidableEq

/-- A Google date dict; each key may be absent. -/
structure GDate where
  year : Option Int
  month : Option Int
  day : Option Int
deriving DecidableEq

/-- One entry of `birthdays`; the `date` key may be absent. -/
structure GBirthday where
  date : Option GDate
deriving DecidableEq

/-- One entry of `biographies`. -/
structure GBio where
  value : String
deriving DecidableEq

/-- A Google People API person as fetched from the remote (the fields the
sync engine reads). -/
structure GPerson where
  resourceName : String
  etag : String
  names : List GName
  emailAddresses : List GEmail
  phoneNumbers : List GPhone
  birthdays : List GBirthday
  biographies : List GBio
deriving DecidableEq

/-- The body dict built by `vcard_to_google` and sent to the People API.
`externalIds` holds `(value, type)` pairs; `etag` is the key assigned by
`GoogleClient.update` before the call. -/
structure GBody where
  names : List GName
  externalIds : List (String × String)
  emailAddresses : List GEmail
  phoneNumbers : List GPhone
  birthdays : List GBirthday
  biographies : List GBio
  etag : Option String
deriving DecidableEq

/-- The `N` property of a vCard. -/
structure VName where
  family : String
  given : String
deriving DecidableEq

/-- An `EMAIL` or `TEL` property: value plus optional `TYPE` parameter. -/
structure VEntry where
  value : String
  vtype : Option String
deriving DecidableEq

/-- A parsed vCard (the `vobject` view of the serialized card; parsing and
serialization are treated as mutually inverse).  `fn` is `none` when the
card has no `FN` property. -/
structure VCard where
  uid : String
  fn : Option String
  n : Option VName
  emails : List VEntry
  tels : List VEntry
  bday : Option String
  note : Option String
deriving DecidableEq

/-- A CardDAV contact as returned by `CardDAVClient.get_all_contacts`. -/
structure CCard where
  href : String
  etag : String
  vcard : VCard
deriving DecidableEq

/-- One row of the `contacts` link-state table. -/
structure LinkRow where
  google_res : String
  carddav_href : String
  etag_google : String
  etag_carddav : String
  fingerprint : String
deriving DecidableEq

/-! ## Fingerprinting -/

/-- `normalize_phone`: strip all characters other than digits and `+`. -/
def normalize_phone (phone : String) : String :=
  ⟨phone.data.filter (fun c => c.isDigit || c = '+')⟩

/-- `fingerprint_from_vcard` on the parsed card: lower-cased stripped `FN`,
lowest lower-cased stripped email, lowest normalized phone, pipe-joined;
`""` when all three are empty. -/
def fingerprint_from_vcard (v : VCard) : String :=
  let name := match v.fn with
    | none => ""
    | some f => pyLower (pyStrip f)
  let emails := sortStrings (v.emails.map (fun e => pyLower (pyStrip e.value)))
  let phones := sortStrings (v.tels.map (fun t => normalize_phone t.value))
  let email := firstOrEmpty emails
  let phone := firstOrEmpty phones
  if name = "" ∧ email = "" ∧ phone = "" then ""
  else name ++ "|" ++ email ++ "|" ++ phone

/-- `fingerprint_from_google`: the same construction from a Google person.
An absent `names` key and an empty `names` list both yield an empty name. -/
def fingerprint_from_google (p : GPerson) : String :=
  let name := match p.names with
    | [] => ""
    | nm :: _ => pyLower (pyStrip nm.displayName)
  let emails := sortStrings (p.emailAddresses.map (fun e => pyLower (pyStrip e.value)))
  let phones := sortStrings (p.phoneNumbers.map (fun ph => normalize_phone ph.value))
  let email := firstOrEmpty emails
  let phone := firstOrEmpty phones
  if name = "" ∧ email = "" ∧ phone = "" then ""
  else name ++ "|" ++ email ++ "|" ++ phone

/-! ## Data normalization -/

/-- Scan for the regex `--(\d{2})-?(\d{2})` at the head of a list. -/
def bbMatchAt : List Char → Option (Int × Int)
  | '-' :: '-' :: a :: b :: rest =>
    if a.isDigit && b.isDigit then
      let mm : Int := Int.ofNat ((a.toNat - 48) * 10 + (b.toNat - 48))
      match rest with
      | '-' :: c :: d :: _ =>
        if c.isDigit && d.isDigit then
          some (mm, Int.ofNat ((c.toNat - 48) * 10 + (d.toNat - 48)))
        else none
      | c :: d :: _ =>
        if c.isDigit && d.isDigit then
          some (mm, Int.ofNat ((c.toNat - 48) * 10 + (d.toNat - 48)))
        else none
      | _ => none
    else none
  | _ => none

/-- `re.search` for the pattern `--(\d{2})-?(\d{2})`. -/
def bbSearch : List Char → Option (Int × Int)
  | [] => none
  | c :: t =>
    match bbMatchAt (c :: t) with
    | some r => some r
    | none => bbSearch t

/-- Python `int()` of a piece produced by splitting on dashes. -/
def pieceToInt (s : String) : Option Int := pyParseInt s

/-- `parse_date`: normalize a birthday string to a Google date dict. -/
def parse_date (d_str : String) : Option GDate :=
  if d_str = "" then none
  else
    let clean : List Char := d_str.data.filter (fun c => c.isDigit || c = '-')
    if clean.take 2 = ['-', '-'] then
      match bbSearch clean with
      | some (m, d) => some ⟨none, some m, some d⟩
      | none => none
    else if clean.contains '-' then
      let parts := (splitOnChar '-' clean).map String.mk
      if parts.length ≥ 3 then
        match pieceToInt parts[0]!, pieceToInt parts[1]!, pieceToInt parts[2]! with
        | some y, some m, some d => some ⟨some y, some m, some d⟩
        | _, _, _ => none
      else none
    else if clean.length = 8 then
      match digitsToNat (clean.take 4), digitsToNat ((clean.drop 4).take 2),
          digitsToNat (clean.drop 6) with
      | some y, some m, some d =>
        some ⟨some (Int.ofNat y), some (Int.ofNat m), some (Int.ofNat d)⟩
      | _, _, _ => none
    else none

/-- `google_to_vcard`: build the vCard written to CardDAV from a Google
person.  A missing or blank display name becomes the placeholder
`"Senza Nome"`. -/
def google_to_vcard (person : GPerson) (uid : String) : VCard :=
  let names0 := person.names.headD ⟨"", "", ""⟩
  let display_name :=
    if pyStrip names0.displayName = "" then "Senza Nome" else pyStrip names0.displayName
  { uid := uid
  , fn := some display_name
  , n := some ⟨names0.familyName, names0.givenName⟩
  , emails := person.emailAddresses.map
      (fun e => ⟨e.value, some (pyUpper (e.etype.getD "home"))⟩)
  , tels := person.phoneNumbers.map
      (fun ph => ⟨ph.value, some (pyUpper (ph.ptype.getD "mobile"))⟩)
  , bday :=
      match person.birthdays with
      | [] => none
      | b :: _ =>
        match b.date with
        | none => none
        | some d =>
          some (replaceAllStr "0000-" "--"
            (padInt 4 (d.year.getD 0) ++ "-" ++ padInt 2 (d.month.getD 0) ++ "-" ++
              padInt 2 (d.day.getD 0)))
  , note :=
      match person.biographies.find? (fun b => b.value ≠ "") with
      | some b => some b.value
      | none => none }

/-- `vcard_to_google`: build the People API body from a vCard. -/
def vcard_to_google (v : VCard) (uid : String) : GBody :=
  let display_name := match v.fn with
    | none => "Senza Nome"
    | some f => pyStrip f
  { names := [⟨display_name, (v.n.map VName.family).getD "", (v.n.map VName.given).getD ""⟩]
  , externalIds := [(uid, "vCard-UID")]
  , emailAddresses := v.emails.map (fun e => ⟨e.value, some "home"⟩)
  , phoneNumbers := v.tels.map (fun t => ⟨t.value, some "mobile"⟩)
  , birthdays :=
      match v.bday with
      | none => []
      | some b =>
        match parse_date b with
        | none => []
        | some dt => [⟨some dt⟩]
  , biographies :=
      match v.note with
      | none => []
      | some nt => [⟨nt⟩]
  , etag := none }

/-! ## Sync engine -/

/-- The observable operations of one run: remote writes, link-state-store
writes and the log lines the claims mention. -/
inductive Ev where
  | gUpdate (res : String) (body : GBody)
  | gCreate (body : GBody)
  | gDelete (res : String)
  | cPut (href : String) (card : VCard)
  | cAdd (card : VCard)
  | cDelete (href : String)
  | dbWrite (uid : String)
  | conflictLog (uid : String)
  | abortLog (gone total : Nat)
deriving DecidableEq

/-- Does the event write to a remote side? -/
def Ev.isRemoteWrite : Ev → Bool
  | .gUpdate _ _ => true
  | .gCreate _ => true
  | .gDelete _ => true
  | .cPut _ _ => true
  | .cAdd _ => true
  | .cDelete _ => true
  | _ => false

/-- Does the event write to the link state store? -/
def Ev.isDbWrite : Ev → Bool
  | .dbWrite _ => true
  | _ => false

/-- Oracle for the values returned by successful remote calls: the etag a
Google update returns, the resource name and etag of a Google create, the
etag of a CardDAV `PUT`, the href and etag of a CardDAV add, and the
`uuid4` stream. -/
structure Remote where
  gUpdateEtag : String → GBody → String
  gCreateRes : GBody → String × String
  cPutEtag : String → VCard → String
  cAddRes : VCard → String × String
  freshUid : Nat → String

/-- `SAFETY_MIN_STATE`. -/
def SAFETY_MIN_STATE : Nat := 50

/-- Numerator of `SAFETY_DELETE_PCT = 0.20` as the exact rational 1/5. -/
def safetyDeletePctNum : Nat := 1

/-- Denominator of `SAFETY_DELETE_PCT = 0.20` as the exact rational 1/5. -/
def safetyDeletePctDen : Nat := 5

/-- Run counters (`stats` dict). -/
structure Stats where
  g_created : Nat
  g_updated : Nat
  c_created : Nat
  c_updated : Nat
  deleted : Nat
  skipped : Nat
  errors : Nat
deriving DecidableEq

/-- All-zero counters. -/
def stats0 : Stats := ⟨0, 0, 0, 0, 0, 0, 0⟩

/-- Accumulator of the index-building pass over the Google snapshot. -/
structure GIndex where
  g_by_fp : Dict (String × GPerson)
  g_unlinked : Dict GPerson
  g_linked : Dict GPerson
deriving DecidableEq

/-- One iteration of the Google index-building loop. -/
def buildGStep (acc : GIndex) (kp : String × GPerson) : GIndex :=
  if strStartsWith kp.1 "people/" then
    let acc := { acc with g_unlinked := dset acc.g_unlinked kp.1 kp.2 }
    let fp := fingerprint_from_google kp.2
    if fp = "" then acc else { acc with g_by_fp := dset acc.g_by_fp fp (kp.1, kp.2) }
  else { acc with g_linked := dset acc.g_linked kp.1 kp.2 }

/-- Step 2 of `sync()` for the Google side: split the snapshot into linked
and unlinked pools and build the fingerprint index of the unlinked pool. -/
def buildGIndex (g_contacts : Dict GPerson) : GIndex :=
  g_contacts.foldl buildGStep ⟨[], [], []⟩

/-- Accumulator of the index-building pass over the CardDAV snapshot. -/
structure CIndex where
  c_by_fp : Dict (String × CCard)
  c_unlinked : List String
deriving DecidableEq

/-- One iteration of the CardDAV index-building loop. -/
def buildCStep (state : Dict LinkRow) (g_linked : Dict GPerson)
    (acc : CIndex) (ud : String × CCard) : CIndex :=
  if !(dmem state ud.1) && !(dmem g_linked ud.1) then
    let acc := { acc with c_unlinked := acc.c_unlinked ++ [ud.1] }
    let fp := fingerprint_from_vcard ud.2.vcard
    if fp = "" then acc else { acc with c_by_fp := dset acc.c_by_fp fp (ud.1, ud.2) }
  else acc

/-- Step 2 of `sync()` for the CardDAV side: collect the UIDs absent from
the state and from the linked Google pool, and index them by fingerprint. -/
def buildCIndex (state : Dict LinkRow) (g_linked : Dict GPerson)
    (c_contacts : Dict CCard) : CIndex :=
  c_contacts.foldl (buildCStep state g_linked) ⟨[], []⟩

/-- Step 3 of `sync()`: pair unlinked contacts by fingerprint equality. -/
def computeMatched (c_by_fp : Dict (String × CCard)) (g_by_fp : Dict (String × GPerson)) :
    Dict (String × GPerson) :=
  c_by_fp.foldl
    (fun m fpc =>
      match dget g_by_fp fpc.1 with
      | some gp => dset m fpc.2.1 gp
      | none => m)
    []

/-- State after the matching phase. -/
structure MatchOut where
  events : List Ev
  db : Dict LinkRow
  c_unlinked : List String
  g_unlinked : Dict GPerson
  g_linked : Dict GPerson
deriving DecidableEq

/-- Applying one matched pair: anchor the UID on the Google side (skipped
when `DRY_RUN`), then write the link row — the row write is unconditional
in the source. -/
def applyMatchStep (dry : Bool) (rm : Remote) (c_contacts : Dict CCard)
    (o : MatchOut) (m : String × String × GPerson) : MatchOut :=
  match dget c_contacts m.1 with
  | none => o
  | some c_data =>
    let anchorBody := { vcard_to_google c_data.vcard m.1 with etag := some m.2.2.etag }
    let evs : List Ev :=
      if dry then [] else [Ev.gUpdate m.2.1 anchorBody]
    let new_g_etag :=
      if dry then m.2.2.etag else rm.gUpdateEtag m.2.1 anchorBody
    let row : LinkRow :=
      ⟨m.2.1, c_data.href, new_g_etag, c_data.etag, fingerprint_from_vcard c_data.vcard⟩
    { events := o.events ++ evs ++ [Ev.dbWrite m.1]
    , db := dset o.db m.1 row
    , c_unlinked := o.c_unlinked.filter (fun u => u ≠ m.1)
    , g_unlinked := ddel o.g_unlinked m.2.1
    , g_linked := dset o.g_linked m.1 m.2.2 }

/-- The whole match-application loop. -/
def applyMatches (dry : Bool) (rm : Remote) (c_contacts : Dict CCard)
    (matched : Dict (String × GPerson)) (start : MatchOut) : MatchOut :=
  matched.foldl (applyMatchStep dry rm c_contacts) start

/-- Steps 2–3 of `sync()`: build both indexes, compute the matches, apply
them.  The resulting `db` is the reloaded state the rest of the run uses. -/
def matchStage (dry : Bool) (rm : Remote) (state : Dict LinkRow)
    (g_contacts : Dict GPerson) (c_contacts : Dict CCard) : MatchOut :=
  let gi := buildGIndex g_contacts
  let ci := buildCIndex state gi.g_linked c_contacts
  let matched := computeMatched ci.c_by_fp gi.g_by_fp
  applyMatches dry rm c_contacts matched ⟨[], state, ci.c_unlinked, gi.g_unlinked, gi.g_linked⟩

/-- `state_uids_gone`: state identifiers absent from the linked Google pool
and from the CardDAV snapshot. -/
def stateUidsGone (state : Dict LinkRow) (g_linked : Dict GPerson)
    (c_contacts : Dict CCard) : List String :=
  (dkeys state).filter (fun u => !(dmem g_linked u) && !(dmem c_contacts u))

/-- The safety-guard condition:
`len(state) > SAFETY_MIN_STATE and len(gone) > len(state) * SAFETY_DELETE_PCT`.
The fractional comparison `gone > total * (1/5)` is written in the exact
cross-multiplied form `gone * 5 > total * 1`; at the store sizes involved
the float expression of the source computes the same truth value. -/
def guardCond (state : Dict LinkRow) (g_linked : Dict GPerson)
    (c_contacts : Dict CCard) : Bool :=
  decide (state.length > SAFETY_MIN_STATE) &&
    decide ((stateUidsGone state g_linked c_contacts).length * safetyDeletePctDen >
      state.length * safetyDeletePctNum)

/-- The union of state keys, linked Google keys and CardDAV UIDs. -/
def allUids (state : Dict LinkRow) (g_linked : Dict GPerson)
    (c_contacts : Dict CCard) : List String :=
  dedupKeys (dkeys state ++ dkeys g_linked ++ dkeys c_contacts)

/-- Accumulator of the reconciliation loop. -/
structure LoopAcc where
  events : List Ev
  db : Dict LinkRow
  stats : Stats
deriving DecidableEq

/-- SQL `UPDATE contacts SET etag_google, etag_carddav, carddav_href WHERE uid`. -/
def dbUpdateEtagsHref (db : Dict LinkRow) (uid eg ec href : String) : Dict LinkRow :=
  db.map (fun kv =>
    if kv.1 = uid then
      (kv.1, { kv.2 with etag_google := eg, etag_carddav := ec, carddav_href := href })
    else kv)

/-- SQL `UPDATE contacts SET etag_google, etag_carddav WHERE uid`. -/
def dbUpdateEtags (db : Dict LinkRow) (uid eg ec : String) : Dict LinkRow :=
  db.map (fun kv =>
    if kv.1 = uid then
      (kv.1, { kv.2 with etag_google := eg, etag_carddav := ec })
    else kv)

/-- The body of step 5 of `sync()`: classify one identifier against the
(post-matching) state and both snapshots and perform the corresponding
operation. -/
def syncOne (dry : Bool) (rm : Remote) (state : Dict LinkRow)
    (g_linked : Dict GPerson) (c_contacts : Dict CCard)
    (acc : LoopAcc) (uid : String) : LoopAcc :=
  let g := dget g_linked uid
  let c := dget c_contacts uid
  let s := dget state uid
  match s, g, c with
  | some _, none, none =>
    -- gone from both sides: drop the link row
    let (evs, db) :=
      if dry then ([], acc.db) else ([Ev.dbWrite uid], ddel acc.db uid)
    { events := acc.events ++ evs, db := db
    , stats := { acc.stats with deleted := acc.stats.deleted + 1 } }
  | some _, none, some cd =>
    -- gone from Google: delete from CardDAV
    let (evs, db) :=
      if dry then ([], acc.db)
      else ([Ev.cDelete cd.href, Ev.dbWrite uid], ddel acc.db uid)
    { events := acc.events ++ evs, db := db
    , stats := { acc.stats with deleted := acc.stats.deleted + 1 } }
  | some srow, some gp, none =>
    -- gone from CardDAV: delete from Google
    let res_name := if srow.google_res ≠ "" then srow.google_res else gp.resourceName
    let (evs, db) :=
      if dry then ([], acc.db)
      else ([Ev.gDelete res_name, Ev.dbWrite uid], ddel acc.db uid)
    { events := acc.events ++ evs, db := db
    , stats := { acc.stats with deleted := acc.stats.deleted + 1 } }
  | none, none, some cd =>
    -- new on CardDAV: create on Google
    if dry then
      { acc with stats := { acc.stats with g_created := acc.stats.g_created + 1 } }
    else
      let body := vcard_to_google cd.vcard uid
      let created := rm.gCreateRes body
      let fp := fingerprint_from_vcard cd.vcard
      let row : LinkRow := ⟨created.1, cd.href, created.2, cd.etag, fp⟩
      { events := acc.events ++ [Ev.gCreate body, Ev.dbWrite uid]
      , db := dset acc.db uid row
      , stats := { acc.stats with g_created := acc.stats.g_created + 1 } }
  | none, some gp, none =>
    -- new on Google: create on CardDAV
    if dry then
      { acc with stats := { acc.stats with c_created := acc.stats.c_created + 1 } }
    else
      let vc := google_to_vcard gp uid
      let added := rm.cAddRes vc
      let fp := fingerprint_from_google gp
      let row : LinkRow := ⟨gp.resourceName, added.1, gp.etag, added.2, fp⟩
      { events := acc.events ++ [Ev.cAdd vc, Ev.dbWrite uid]
      , db := dset acc.db uid row
      , stats := { acc.stats with c_created := acc.stats.c_created + 1 } }
  | none, some gp, some cd =>
    -- both exist, no state: adopt the pair (INSERT OR IGNORE)
    if dry then
      { acc with stats := { acc.stats with skipped := acc.stats.skipped + 1 } }
    else
      let fp := fingerprint_from_vcard cd.vcard
      let row : LinkRow := ⟨gp.resourceName, cd.href, gp.etag, cd.etag, fp⟩
      { events := acc.events ++ [Ev.dbWrite uid]
      , db := dsetIfAbsent acc.db uid row
      , stats := { acc.stats with skipped := acc.stats.skipped + 1 } }
  | some srow, some gp, some cd =>
    -- update case: compare current tokens against the stored tokens
    if gp.etag = srow.etag_google ∧ cd.etag = srow.etag_carddav then
      { acc with stats := { acc.stats with skipped := acc.stats.skipped + 1 } }
    else if gp.etag ≠ srow.etag_google ∧ cd.etag = srow.etag_carddav then
      -- only Google changed: propagate Google → CardDAV
      if dry then
        { acc with stats := { acc.stats with c_updated := acc.stats.c_updated + 1 } }
      else
        let vc := google_to_vcard gp uid
        let newEtag := rm.cPutEtag cd.href vc
        { events := acc.events ++ [Ev.cPut cd.href vc, Ev.dbWrite uid]
        , db := dbUpdateEtagsHref acc.db uid gp.etag newEtag cd.href
        , stats := { acc.stats with c_updated := acc.stats.c_updated + 1 } }
    else if cd.etag ≠ srow.etag_carddav ∧ gp.etag = srow.etag_google then
      -- only CardDAV changed: propagate CardDAV → Google
      if dry then
        { acc with stats := { acc.stats with g_updated := acc.stats.g_updated + 1 } }
      else
        let body := { vcard_to_google cd.vcard uid with etag := some gp.etag }
        let res_name := if srow.google_res ≠ "" then srow.google_res else gp.resourceName
        let newEtag := rm.gUpdateEtag res_name body
        { events := acc.events ++ [Ev.gUpdate res_name body, Ev.dbWrite uid]
        , db := dbUpdateEtags acc.db uid newEtag cd.etag
        , stats := { acc.stats with g_updated := acc.stats.g_updated + 1 } }
    else
      -- both changed: conflict, Google wins
      let evs : List Ev :=
        if dry then [Ev.conflictLog uid]
        else
          [Ev.conflictLog uid, Ev.cPut cd.href (google_to_vcard gp uid), Ev.dbWrite uid]
      let db :=
        if dry then acc.db
        else
          dbUpdateEtagsHref acc.db uid gp.etag
            (rm.cPutEtag cd.href (google_to_vcard gp uid)) cd.href
      { events := acc.events ++ evs, db := db
      , stats := { acc.stats with c_updated := acc.stats.c_updated + 1 } }
  | none, none, none =>
    -- not reachable from the identifier union; the loop body does nothing
    acc

/-- Step 6 of `sync()`: one truly unlinked Google contact gets a fresh
UID, the UID is anchored on Google, and the contact is created on CardDAV. -/
def unlinkedStep (dry : Bool) (rm : Remote) (st : LoopAcc × Nat)
    (rp : String × GPerson) : LoopAcc × Nat :=
  let acc := st.1
  let idx := st.2
  let new_uid := rm.freshUid idx
  if dry then
    ({ acc with stats := { acc.stats with c_created := acc.stats.c_created + 1 } }, idx + 1)
  else
    let body :=
      { vcard_to_google (google_to_vcard rp.2 new_uid) new_uid with etag := some rp.2.etag }
    let updatedEtag := rm.gUpdateEtag rp.1 body
    let vc := google_to_vcard rp.2 new_uid
    let added := rm.cAddRes vc
    let fp := fingerprint_from_google rp.2
    let row : LinkRow := ⟨rp.1, added.1, updatedEtag, added.2, fp⟩
    ({ events := acc.events ++ [Ev.gUpdate rp.1 body, Ev.cAdd vc, Ev.dbWrite new_uid]
     , db := dset acc.db new_uid row
     , stats := { acc.stats with c_created := acc.stats.c_created + 1 } }, idx + 1)

/-- Result of one full run of `sync()`. -/
structure SyncOut where
  events : List Ev
  db : Dict LinkRow
  aborted : Bool
  stats : Stats
deriving DecidableEq

/-- The whole of `sync()`: match, guard, reconcile, handle the unlinked
Google pool.  Remote fetches are the two snapshot arguments; all writes are
recorded in `events`; `db` is the final content of the link state store. -/
def runSync (dry : Bool) (rm : Remote) (state : Dict LinkRow)
    (g_contacts : Dict GPerson) (c_contacts : Dict CCard) : SyncOut :=
  let m := matchStage dry rm state g_contacts c_contacts
  if guardCond m.db m.g_linked c_contacts then
    { events := m.events ++
        [Ev.abortLog (stateUidsGone m.db m.g_linked c_contacts).length m.db.length]
    , db := m.db, aborted := true, stats := stats0 }
  else
    let uids := allUids m.db m.g_linked c_contacts
    let acc1 := uids.foldl (syncOne dry rm m.db m.g_linked c_contacts)
      ⟨m.events, m.db, stats0⟩
    let acc2 := (m.g_unlinked.foldl (unlinkedStep dry rm) (acc1, 0)).1
    ⟨acc2.events, acc2.db, false, acc2.stats⟩

end Contacts

namespace Tasks

/-! ## Data model of `vtodo-notion/sync.py` -/

/-- `map_priority`: iCal numeric priority string to a Notion label.
`None`, unparsable and zero inputs yield `"Nessuna"`. -/
def map_priority (ical_priority : Option String) : String :=
  match ical_priority with
  | none => "Nessuna"
  | some s =>
    match pyParseInt s with
    | none => "Nessuna"
    | some p =>
      if p = 0 then "Nessuna"
      else if p ≤ 2 then "Alta"
      else if p ≤ 5 then "Media"
      else "Bassa"

/-- `reverse_priority`: Notion label back to an iCal priority string, with
`"0"` as the dict-lookup default. -/
def reverse_priority (notion_priority : String) : String :=
  if notion_priority = "Alta" then "1"
  else if notion_priority = "Media" then "5"
  else if notion_priority = "Bassa" then "9"
  else if notion_priority = "Nessuna" then "0"
  else "0"

/-- `_ical_escape`: RFC 5545 escaping of property values. -/
def icalEscape (value : String) : String :=
  let v1 := replaceAllStr "\\" "\\\\" value
  let v2 := replaceAllStr "\r\n" "\\n" v1
  let v3 := replaceAllStr "\r" "\\n" v2
  let v4 := replaceAllStr "\n" "\\n" v3
  replaceAllStr ";" "\\;" v4

/-- A task record as parsed from a Notion page by `parse_notion_page`.
The optional `status` field models the `"status"` dict key, which
`parse_notion_page` never sets and the recurring-completion path overrides
with `"In corso"`. -/
structure NotionTask where
  page_id : String
  uid : String
  summary : String
  description : String
  due : Option String
  priority : String
  location : String
  url : String
  list_name : String
  rrule : String
  completato : Bool
  last_modified : String
  status : Option String := none
deriving DecidableEq

/-- `advanced_data = {**data, "due": next_due, "status": "In corso",
"completato": False}` in the recurring-completion path. -/
def advanceTask (t : NotionTask) (next_due : String) : NotionTask :=
  { t with due := some next_due, status := some "In corso", completato := false }

/-- The `STATUS` value chosen by `build_ical_todo`: the checked Notion
completion flag has precedence over the textual status. -/
def icalStatusOf (data : NotionTask) : String :=
  if data.completato then "COMPLETED"
  else if data.status = some "Completato" then "COMPLETED"
  else "NEEDS-ACTION"

/-- `build_ical_todo`: serialize a task to a VCALENDAR/VTODO string. -/
def build_ical_todo (data : NotionTask) : String :=
  let summary := icalEscape data.summary
  let description := icalEscape data.description
  let priority := reverse_priority data.priority
  let status := icalStatusOf data
  let base := ["BEGIN:VCALENDAR", "VERSION:2.0", "PRODID:-//vtodo-notion//EN",
    "BEGIN:VTODO", "UID:" ++ data.uid, "SUMMARY:" ++ summary, "STATUS:" ++ status,
    "PRIORITY:" ++ priority]
  let l1 := if description ≠ "" then base ++ ["DESCRIPTION:" ++ description] else base
  let l2 :=
    match data.due with
    | some d =>
      if d ≠ "" then
        -- DUE keeps only the date part, dashes removed
        l1 ++ ["DUE:" ++ String.mk ((d.data.take 10).filter (fun ch => ch ≠ '-'))]
      else l1
    | none => l1
  let l3 := if data.location ≠ "" then l2 ++ ["LOCATION:" ++ data.location] else l2
  let l4 := if data.url ≠ "" then l3 ++ ["URL:" ++ data.url] else l3
  let l5 := if data.rrule ≠ "" then l4 ++ ["RRULE:" ++ data.rrule] else l4
  String.intercalate "\n" (l5 ++ ["END:VTODO", "END:VCALENDAR"])

/-- A Gregorian calendar date (`datetime.date`). -/
structure PyDate where
  year : Nat
  month : Nat
  day : Nat
deriving DecidableEq

/-- Gregorian leap-year rule. -/
def isLeapYear (y : Nat) : Bool :=
  y % 4 = 0 && (y % 100 ≠ 0 || y % 400 = 0)

/-- Days in a Gregorian month. -/
def daysInMonth (y m : Nat) : Nat :=
  if m = 2 then (if isLeapYear y then 29 else 28)
  else if m = 4 ∨ m = 6 ∨ m = 9 ∨ m = 11 then 30
  else 31

/-- `date + timedelta(days=1)`. -/
def addOneDay (dt : PyDate) : PyDate :=
  if dt.day < daysInMonth dt.year dt.month then ⟨dt.year, dt.month, dt.day + 1⟩
  else if dt.month < 12 then ⟨dt.year, dt.month + 1, 1⟩
  else ⟨dt.year + 1, 1, 1⟩

/-- `date.isoformat()`. -/
def isoOfDate (dt : PyDate) : String :=
  padNat 4 dt.year ++ "-" ++ padNat 2 dt.month ++ "-" ++ padNat 2 dt.day

/-- `find_calendar_by_name` over the calendar display names. -/
def findCalendarByName (calendars : List String) (name : String) : Option String :=
  calendars.find? (fun c => c = name)

/-- Observable operations of the Notion → CalDAV handler: a call to the
retry-wrapped `update_caldav_todo` with its payload, a Notion properties
update (completion status and due date), or a Notion page archive. -/
inductive VEv where
  | caldavWrite (uid : String) (ical : String)
  | notionUpdate (pageId : String) (completatoStatus : String) (scadenza : Option String)
  | notionArchive (pageId : String)
deriving DecidableEq

/-- Classification of one page by the Notion → CalDAV sweep. -/
inductive StepTag where
  | noUid
  | archivedTag
  | recurringCompleted
  | skippedOld
  | skippedNoCal
  | updated
deriving DecidableEq

/-- The per-page body of `sync_notion_to_caldav`.  `nextOcc` abstracts
`next_rrule_occurrence` (the `dateutil` RRULE engine: next occurrence
strictly after the given ISO date, or `none` when exhausted or
unparsable); `today` is `date.today()`; `cm` is
`state.caldav_modified.get(uid, "")`. -/
def notionToCaldavStep (nextOcc : String → Option String → Option String)
    (today : PyDate) (calendars : List String) (cm : String)
    (t : NotionTask) : List VEv × StepTag :=
  if t.uid = "" then ([], StepTag.noUid)
  else
    let notion_modified := t.last_modified
    let caldav_modified := cm
    if t.completato then
      let calendar := findCalendarByName calendars t.list_name
      if t.rrule ≠ "" then
        -- recurring: never write STATUS:COMPLETED; advance DUE instead
        let next_due :=
          match nextOcc t.rrule t.due with
          | some d => d
          | none => isoOfDate (addOneDay today)
        let advanced : NotionTask := advanceTask t next_due
        let evs1 : List VEv :=
          match calendar with
          | some _ => [VEv.caldavWrite t.uid (build_ical_todo advanced)]
          | none => []
        (evs1 ++ [VEv.notionUpdate t.page_id "Not started" (some next_due)],
          StepTag.recurringCompleted)
      else
        -- one-shot: write COMPLETED to CalDAV and archive the Notion page
        let evs1 : List VEv :=
          match calendar with
          | some _ => [VEv.caldavWrite t.uid (build_ical_todo t)]
          | none => []
        (evs1 ++ [VEv.notionArchive t.page_id], StepTag.archivedTag)
    else
      if caldav_modified ≠ "" ∧ notion_modified ≤ caldav_modified then
        ([], StepTag.skippedOld)
      else
        match findCalendarByName calendars t.list_name with
        | none => ([], StepTag.skippedNoCal)
        | some _ => ([VEv.caldavWrite t.uid (build_ical_todo t)], StepTag.updated)

/-! ## Retry / circuit-breaker wrapper -/

/-- `MAX_RETRIES`. -/
def MAX_RETRIES : Nat := 3

/-- `CIRCUIT_BREAKER_THRESHOLD`. -/
def CIRCUIT_BREAKER_THRESHOLD : Nat := 10

/-- The global breaker state (`circuit_breaker_errors`,
`circuit_breaker_triggered`). -/
structure Breaker where
  errors : Nat
  triggered : Bool
deriving DecidableEq

/-- The breaker state at module start and after the between-directions
reset in `sync()`. -/
def breaker0 : Breaker := ⟨0, false⟩

/-- Outcome of invoking the wrapped operation once. -/
inductive Attempt where
  | ok
  | transient
  | validation
deriving DecidableEq

/-- Result of one `with_retry`-wrapped call: `noneR` is Python `None`
(breaker skip, or trip during the call). -/
inductive RResult where
  | success
  | noneR
  | raisedValidation
  | raisedTransient
deriving DecidableEq

/-- Observable outcome of one wrapped call: result, new breaker state,
number of invocations of the wrapped operation, seconds slept. -/
structure RetryOut where
  res : RResult
  b : Breaker
  invoked : Nat
  slept : Nat
deriving DecidableEq

/-- `_handle_retry_error`: bump the error counter; trip at the threshold
(returning immediately, before any sleep); otherwise sleep `2 ^ attempt`
when retries remain, or re-raise on the last attempt.  Returns the new
breaker, the seconds slept, and whether the exception was re-raised. -/
def handleRetryError (b : Breaker) (attempt : Nat) : Breaker × Nat × Bool :=
  let e := b.errors + 1
  if e ≥ CIRCUIT_BREAKER_THRESHOLD then (⟨e, true⟩, 0, false)
  else if attempt < MAX_RETRIES - 1 then ({ b with errors := e }, 2 ^ attempt, false)
  else ({ b with errors := e }, 0, true)

/-- The attempt loop of `with_retry` (`remaining` counts the attempts left
out of `MAX_RETRIES`). -/
def retryLoop (f : Nat → Attempt) :
    Nat → Nat → Breaker → Nat → Nat → RetryOut
  | 0, _, b, inv, sl => ⟨RResult.noneR, b, inv, sl⟩
  | r + 1, attempt, b, inv, sl =>
    match f attempt with
    | Attempt.ok => ⟨RResult.success, { b with errors := 0 }, inv + 1, sl⟩
    | Attempt.validation => ⟨RResult.raisedValidation, b, inv + 1, sl⟩
    | Attempt.transient =>
      let h := handleRetryError b attempt
      if h.1.triggered then ⟨RResult.noneR, h.1, inv + 1, sl + h.2.1⟩
      else if h.2.2 then ⟨RResult.raisedTransient, h.1, inv + 1, sl + h.2.1⟩
      else retryLoop f r (attempt + 1) h.1 (inv + 1) (sl + h.2.1)

/-- `with_retry`: skip immediately when the breaker is triggered, else run
the attempt loop. -/
def with_retry (f : Nat → Attempt) (b : Breaker) : RetryOut :=
  if b.triggered then ⟨RResult.noneR, b, 0, 0⟩
  else retryLoop f MAX_RETRIES 0 b 0 0

/-- Accumulated observables of a sequence of wrapped writes in one sync
direction: breaker state, indices of the writes that succeeded (persisted
results), total invocations of wrapped operations, total seconds slept. -/
structure RunAcc where
  b : Breaker
  persisted : List Nat
  invoked : Nat
  slept : Nat
deriving DecidableEq

/-- Fold a list of wrapped writes through `with_retry`. -/
def runOpsAux : List (Nat → Attempt) → Nat → RunAcc → RunAcc
  | [], _, acc => acc
  | f :: rest, idx, acc =>
    let r := with_retry f acc.b
    runOpsAux rest (idx + 1)
      { b := r.b
      , persisted := if r.res = RResult.success then acc.persisted ++ [idx] else acc.persisted
      , invoked := acc.invoked + r.invoked
      , slept := acc.slept + r.slept }

/-- Run a sequence of wrapped writes from a given breaker state. -/
def runOps (b0 : Breaker) (ops : List (Nat → Attempt)) : RunAcc :=
  runOpsAux ops 0 ⟨b0, [], 0, 0⟩

/-- The two sequential sync directions of one `sync()` run: the breaker is
explicitly reset to `(0, False)` between them (`sync()`, the global reset
before `sync_notion_to_caldav`). -/
def twoDirectionRun (ops1 ops2 : List (Nat → Attempt)) : RunAcc × RunAcc :=
  (runOps breaker0 ops1, runOps breaker0 ops2)

/-- A wrapped operation that fails transiently on every attempt. -/
def transientOp : Nat → Attempt := fun _ => Attempt.transient

/-- A wrapped operation that succeeds on the first attempt. -/
def okOp : Nat → Attempt := fun _ => Attempt.ok

end Tasks

/-! ## Concrete fixtures used by counterexamples and witnesses -/

namespace Contacts

/-- A deterministic remote oracle: fixed etags, hrefs and UID stream. -/
def rm0 : Remote :=
  { gUpdateEtag := fun _ _ => "GE2"
  , gCreateRes := fun _ => ("people/new", "GE1")
  , cPutEtag := fun _ _ => "CE2"
  , cAddRes := fun _ => ("hrefNew", "CE1")
  , freshUid := fun n => "fresh" ++ Nat.repr n }

/-- A generic stored link row. -/
def row0 : LinkRow := ⟨"people/g", "h", "eg", "ec", "fp"⟩

/-- A link state store with exactly 50 entries. -/
def state50 : Dict LinkRow := (List.range 50).map (fun i => ("u" ++ Nat.repr i, row0))

/-- A link state store with 51 entries. -/
def state51 : Dict LinkRow := (List.range 51).map (fun i => ("u" ++ Nat.repr i, row0))

/-- An unlinked Google person with fingerprint `"alice||"`. -/
def person8 : GPerson := ⟨"people/x", "eg8", [⟨"Alice", "", ""⟩], [], [], [], []⟩

/-- An unlinked CardDAV card with the same fingerprint `"alice||"`. -/
def card8 : CCard := ⟨"h8", "ec8", ⟨"cu", some "Alice", none, [], [], none, none⟩⟩

/-- First CardDAV card with fingerprint `"bob||"`. -/
def cardDup1 : CCard := ⟨"h1", "e1", ⟨"u1", some "Bob", none, [], [], none, none⟩⟩

/-- Second CardDAV card with the same fingerprint `"bob||"`. -/
def cardDup2 : CCard := ⟨"h2", "e2", ⟨"u2", some "Bob", none, [], [], none, none⟩⟩

/-- An unlinked Google person with fingerprint `"bob||"`. -/
def personB : GPerson := ⟨"people/b", "egB", [⟨"Bob", "", ""⟩], [], [], [], []⟩

/-- A Google person with an email but no name. -/
def p6 : GPerson := ⟨"people/6", "e6", [], [⟨"X@y.com", none⟩], [], [], []⟩

/-- A vCard whose only identity field is the phone number `"1+2"`. -/
def v7 : VCard := ⟨"u7", none, none, [], [⟨"1+2", none⟩], none, none⟩

/-- A stored link row whose tokens are both stale (conflict witness). -/
def srow3 : LinkRow := ⟨"people/3", "h3", "egOld", "ecOld", "ann||"⟩

/-- The current Google record of the conflict witness (changed etag). -/
def gp3 : GPerson := ⟨"people/3", "egNew", [⟨"Ann", "", ""⟩], [], [], [], []⟩

/-- The current CardDAV record of the conflict witness (changed etag). -/
def cd3 : CCard := ⟨"h3", "ecNew", ⟨"u3", some "Annie", none, [], [], none, none⟩⟩

/-- A consistent linked triple for the idempotence witness. -/
def rowW : LinkRow := ⟨"people/w", "hw", "egW", "ecW", "alice||"⟩

/-- The Google side of the consistent triple. -/
def personW : GPerson := ⟨"people/w", "egW", [⟨"Alice", "", ""⟩], [], [], [], []⟩

/-- The CardDAV side of the consistent triple. -/
def cardW : CCard := ⟨"hw", "ecW", ⟨"uw", some "Alice", none, [], [], none, none⟩⟩

end Contacts

namespace Tasks

/-- A recurring Notion task checked off in Notion, with prior due date
`2020-01-01`. -/
def t0 : NotionTask :=
  ⟨"pid", "uid0", "Task", "", some "2020-01-01", "Nessuna", "", "", "Lista",
    "FREQ=WEEKLY", true, "2026-01-01T00:00:00Z", none⟩

/-- An RRULE oracle for a rule that yields no further occurrence
(`next_rrule_occurrence` returns `None` when the rule is exhausted or
unparsable). -/
def noOcc : String → Option String → Option String := fun _ _ => none

/-- An RRULE oracle that yields a fixed next occurrence. -/
def someOcc : String → Option String → Option String := fun _ _ => some "2026-10-19"

/-- The run date used by the fixtures. -/
def today0 : PyDate := ⟨2026, 10, 12⟩

end Tasks

namespace Contacts

/-- The identifier `uid` is fully in sync: the stored link and both
current records exist and the stored change tokens equal the current ones
— the state a successful run leaves behind when nothing changes remotely
afterwards. -/
abbrev inSyncAt (state : Dict LinkRow) (g : Dict GPerson) (c : Dict CCard)
    (uid : String) : Prop :=
  (dget state uid).isSome = true ∧ (dget g uid).isSome = true ∧
    (dget c uid).isSome = true ∧
    (dget state uid).map LinkRow.etag_google = (dget g uid).map GPerson.etag ∧
    (dget state uid).map LinkRow.etag_carddav = (dget c uid).map CCard.etag

/-- Does the string consist of digits with at most a leading plus sign?
(The phone format asserted by the specification.) -/
def leadingPlusDigitsOnly (s : String) : Bool :=
  match s.data with
  | [] => true
  | c :: rest => (c = '+' || c.isDigit) && rest.all Char.isDigit

/-- Spec-side formulation of the vCard fingerprint, following the
specification's words: pipe-delimited join of the lower-cased trimmed
name, the lexicographically lowest lower-cased email and the
lexicographically lowest normalized phone; empty string when no
identity-bearing field is populated. -/
def fingerprintVcardSpec (v : VCard) : String :=
  let name := pyLower (pyStrip (v.fn.getD ""))
  let email := lowestString (v.emails.map (fun e => pyLower (pyStrip e.value)))
  let phone := lowestString (v.tels.map (fun t => normalize_phone t.value))
  if name = "" ∧ email = "" ∧ phone = "" then ""
  else name ++ "|" ++ email ++ "|" ++ phone

end Contacts

/-! ## Helper lemmas -/

open Contacts Tasks

theorem dget_dset_self {β : Type} (d : Dict β) (k : String) (v : β) :
    dget (dset d k v) k = some v := by
  induction d with
  | nil => simp [dset, dget]
  | cons kv t ih =>
    by_cases h : kv.1 = k
    · simp [dset, h, dget]
    · simp [dset, h, dget, ih]

theorem dget_dset_ne {β : Type} (d : Dict β) (k k' : String) (v : β) (h : k' ≠ k) :
    dget (dset d k' v) k = dget d k := by
  induction d with
  | nil => simp [dset, dget, h]
  | cons kv t ih =>
    by_cases hk : kv.1 = k'
    · simp [dset, hk, dget, h]
    · simp [dset, hk, dget, ih]

theorem dropWhile_idem (p : Char → Bool) (l : List Char) :
    List.dropWhile p (List.dropWhile p l) = List.dropWhile p l := by
  induction l with
  | nil => rfl
  | cons a t ih =>
    by_cases h : p a
    · simp [List.dropWhile_cons, h, ih]
    · simp [List.dropWhile_cons, h]

theorem head?_dropWhile_not (p : Char → Bool) (l : List Char) (a : Char)
    (h : (List.dropWhile p l).head? = some a) : p a = false := by
  induction l with
  | nil => simp [List.dropWhile] at h
  | cons b t ih =>
    by_cases hb : p b
    · exact ih (by simpa [List.dropWhile_cons, hb] using h)
    · rw [List.dropWhile_cons, if_neg (by simp [hb])] at h
      simp only [List.head?_cons, Option.some.injEq] at h
      subst h
      simpa using hb

theorem dropWhile_eq_self (p : Char → Bool) (x : List Char)
    (h : ∀ a, x.head? = some a → p a = false) : List.dropWhile p x = x := by
  cases x with
  | nil => rfl
  | cons a t =>
    rw [List.dropWhile_cons, if_neg]
    simp [h a rfl]

theorem getLast?_dropWhile (p : Char → Bool) (l : List Char)
    (h : List.dropWhile p l ≠ []) :
    (List.dropWhile p l).getLast? = l.getLast? := by
  induction l with
  | nil => simp [List.dropWhile] at h
  | cons a t ih =>
    by_cases ha : p a
    · rw [List.dropWhile_cons, if_pos (by simp [ha])] at h ⊢
      have ht : t ≠ [] := by
        intro he
        rw [he] at h
        simp [List.dropWhile] at h
      rw [ih h]
      cases t with
      | nil => exact absurd rfl ht
      | cons b t2 => simp [List.getLast?_cons_cons]
    · rw [List.dropWhile_cons, if_neg (by simp [ha])]

theorem pyStripList_eq_self (x : List Char)
    (h1 : ∀ a, x.head? = some a → Char.isWhitespace a = false)
    (h2 : ∀ a, x.reverse.head? = some a → Char.isWhitespace a = false) :
    pyStripList x = x := by
  unfold pyStripList
  rw [dropWhile_eq_self _ x h1, dropWhile_eq_self _ x.reverse h2, List.reverse_reverse]

theorem pyStripList_noLead (l : List Char) (a : Char)
    (ha : (pyStripList l).head? = some a) : Char.isWhitespace a = false := by
  unfold pyStripList at ha
  rw [List.head?_reverse] at ha
  have hD : List.dropWhile Char.isWhitespace
      (l.dropWhile Char.isWhitespace).reverse ≠ [] := by
    intro he
    rw [he] at ha
    simp at ha
  rw [getLast?_dropWhile _ _ hD, List.getLast?_reverse] at ha
  exact head?_dropWhile_not _ _ _ ha

theorem pyStripList_noTrail (l : List Char) (a : Char)
    (ha : (pyStripList l).reverse.head? = some a) : Char.isWhitespace a = false := by
  unfold pyStripList at ha
  rw [List.reverse_reverse] at ha
  exact head?_dropWhile_not _ _ _ ha

theorem pyStripList_idem (l : List Char) :
    pyStripList (pyStripList l) = pyStripList l :=
  pyStripList_eq_self _ (pyStripList_noLead l) (pyStripList_noTrail l)

theorem pyStrip_idem (s : String) : pyStrip (pyStrip s) = pyStrip s :=
  congrArg String.mk (pyStripList_idem s.data)

theorem lexLt_irrefl (l : List Char) : lexLt l l = false := by
  induction l with
  | nil => rfl
  | cons c t ih => simp [lexLt, lt_irrefl, ih]

theorem lexLt_trans {a b c : List Char} (h1 : lexLt a b = true)
    (h2 : lexLt b c = true) : lexLt a c = true := by
  induction a generalizing b c with
  | nil =>
    cases c with
    | nil =>
      cases b with
      | nil => exact absurd h2 (by simp [lexLt])
      | cons y ys => exact absurd h2 (by simp [lexLt])
    | cons z zs => rfl
  | cons x xs ih =>
    cases b with
    | nil => exact absurd h1 (by simp [lexLt])
    | cons y ys =>
      cases c with
      | nil => exact absurd h2 (by simp [lexLt])
      | cons z zs =>
        simp only [lexLt] at h1 h2 ⊢
        by_cases hxy : x < y
        · by_cases hyz : y < z
          · simp [lt_trans hxy hyz]
          · by_cases hzy : z < y
            · exact absurd h2 (by simp [hyz, hzy])
            · have : y = z := le_antisymm (not_lt.mp hzy) (not_lt.mp hyz)
              subst this
              simp [hxy]
        · by_cases hyx : y < x
          · exact absurd h1 (by simp [hxy, hyx])
          · have hxy' : x = y := le_antisymm (not_lt.mp hyx) (not_lt.mp hxy)
            subst hxy'
            by_cases hyz : x < z
            · simp [hyz]
            · by_cases hzy : z < x
              · exact absurd h2 (by simp [hyz, hzy])
              · have : x = z := le_antisymm (not_lt.mp hzy) (not_lt.mp hyz)
                subst this
                simp only [lt_irrefl, if_false] at h1 h2 ⊢
                exact ih (by simpa [hxy] using h1) (by simpa using h2)

theorem lexLt_eq_of_not {a b : List Char} (h1 : lexLt a b = false)
    (h2 : lexLt b a = false) : a = b := by
  induction a generalizing b with
  | nil =>
    cases b with
    | nil => rfl
    | cons y ys => exact absurd h1 (by simp [lexLt])
  | cons x xs ih =>
    cases b with
    | nil => exact absurd h2 (by simp [lexLt])
    | cons y ys =>
      simp only [lexLt] at h1 h2
      by_cases hxy : x < y
      · exact absurd h1 (by simp [hxy])
      · by_cases hyx : y < x
        · exact absurd h2 (by simp [hyx])
        · have hxy' : x = y := le_antisymm (not_lt.mp hyx) (not_lt.mp hxy)
          subst hxy'
          have hxs : lexLt xs ys = false := by simpa [lt_irrefl] using h1
          have hys : lexLt ys xs = false := by simpa [lt_irrefl] using h2
          rw [ih hxs hys]

theorem lexLt_asymm {a b : List Char} (h : lexLt a b = true) : lexLt b a = false := by
  by_contra hc
  have hba : lexLt b a = true := by
    cases hv : lexLt b a with
    | true => rfl
    | false => exact absurd hv hc
  have := lexLt_trans h hba
  rw [lexLt_irrefl] at this
  exact Bool.false_ne_true this

theorem pyStrLe_total (a b : String) (h : pyStrLe a b = false) : pyStrLe b a = true := by
  unfold pyStrLe at h ⊢
  have hlt : lexLt b.data a.data = true := by
    cases hv : lexLt b.data a.data with
    | true => rfl
    | false => rw [hv] at h; simp at h
  rw [lexLt_asymm hlt]
  rfl

theorem pyStrLe_trans {a b c : String} (h1 : pyStrLe a b = true)
    (h2 : pyStrLe b c = true) : pyStrLe a c = true := by
  unfold pyStrLe at h1 h2 ⊢
  have hba : lexLt b.data a.data = false := by
    cases hv : lexLt b.data a.data with
    | false => rfl
    | true => rw [hv] at h1; simp at h1
  have hcb : lexLt c.data b.data = false := by
    cases hv : lexLt c.data b.data with
    | false => rfl
    | true => rw [hv] at h2; simp at h2
  have hca : lexLt c.data a.data = false := by
    by_cases hbc : lexLt b.data c.data = true
    · cases hv : lexLt c.data a.data with
      | false => rfl
      | true =>
        have hba' := lexLt_trans hbc hv
        rw [hba'] at hba
        simp at hba
    · have hbc' : lexLt b.data c.data = false := by
        cases hv : lexLt b.data c.data with
        | false => rfl
        | true => exact absurd hv hbc
      have heq : b.data = c.data := lexLt_eq_of_not hbc' hcb
      rw [← heq]
      exact hba
  rw [hca]
  rfl

theorem pyMin_assoc (a b c : String) : pyMin (pyMin a b) c = pyMin a (pyMin b c) := by
  unfold pyMin
  by_cases hab : pyStrLe a b = true
  · rw [if_pos hab]
    by_cases hbc : pyStrLe b c = true
    · rw [if_pos hbc, if_pos hab, if_pos (pyStrLe_trans hab hbc)]
    · rw [if_neg hbc]
  · rw [if_neg hab]
    by_cases hbc : pyStrLe b c = true
    · rw [if_pos hbc, if_neg hab]
    · rw [if_neg hbc]
      have hab' : pyStrLe a b = false := by
        cases hv : pyStrLe a b with
        | false => rfl
        | true => exact absurd hv hab
      have hac : pyStrLe a c = false := by
        cases hv : pyStrLe a c with
        | false => rfl
        | true =>
          have hcb : pyStrLe c b = true := pyStrLe_total b c (by
            cases hw : pyStrLe b c with
            | false => rfl
            | true => exact absurd hw hbc)
          have := pyStrLe_trans hv hcb
          rw [this] at hab'
          simp at hab'
      rw [if_neg (by simp [hac])]

theorem foldl_pyMin_eq (t : List String) (a : String) :
    t.foldl pyMin a =
      match lowestString? t with
      | none => a
      | some m => pyMin a m := by
  induction t generalizing a with
  | nil => rfl
  | cons c t' ih =>
    show t'.foldl pyMin (pyMin a c) = _
    rw [ih (pyMin a c)]
    have hc := ih c
    cases hv : lowestString? t' with
    | none =>
      simp only [hv]
      show pyMin a c = pyMin a (t'.foldl pyMin c)
      rw [hc, hv]
    | some m =>
      simp only [hv]
      show pyMin (pyMin a c) m = pyMin a (t'.foldl pyMin c)
      rw [hc, hv, pyMin_assoc]

theorem head?_orderedInsert_str (a : String) (l : List String) :
    (List.orderedInsert (fun x y => pyStrLe x y = true) a l).head? =
      some (match l.head? with
        | none => a
        | some b => pyMin a b) := by
  cases l with
  | nil => rfl
  | cons b t =>
    by_cases h : pyStrLe a b = true
    · simp [List.orderedInsert, h, pyMin]
    · simp [List.orderedInsert, h, pyMin]

theorem sortStrings_nil_iff (l : List String) : sortStrings l = [] ↔ l = [] := by
  constructor
  · intro h
    have := congrArg List.length h
    rw [sortStrings, List.length_insertionSort] at this
    exact List.length_eq_zero.mp this
  · intro h
    rw [h]
    rfl

theorem head?_sortStrings (l : List String) :
    (sortStrings l).head? = lowestString? l := by
  induction l with
  | nil => rfl
  | cons a t ih =>
    show (List.orderedInsert _ a (sortStrings t)).head? = _
    rw [head?_orderedInsert_str]
    cases hv : (sortStrings t).head? with
    | none =>
      have ht : t = [] := by
        have : sortStrings t = [] := by
          cases hs : sortStrings t with
          | nil => rfl
          | cons x xs => rw [hs] at hv; simp at hv
        exact (sortStrings_nil_iff t).mp this
      subst ht
      rfl
    | some b =>
      rw [ih] at hv
      show some (pyMin a b) = some (t.foldl pyMin a)
      rw [foldl_pyMin_eq t a, hv]

theorem firstOrEmpty_eq_head? (l : List String) :
    firstOrEmpty l = (l.head?).getD "" := by
  cases l <;> rfl

theorem lowestString_eq_getD (l : List String) :
    lowestString l = (lowestString? l).getD "" := by
  cases l <;> rfl

theorem dget_append_none {β : Type} (d1 d2 : Dict β) (k : String)
    (h1 : dget d1 k = none) (h2 : dget d2 k = none) : dget (d1 ++ d2) k = none := by
  induction d1 with
  | nil => simpa using h2
  | cons kv t ih =>
    simp only [dget] at h1
    by_cases hk : kv.1 = k
    · rw [if_pos hk] at h1
      exact absurd h1 (by simp)
    · rw [if_neg hk] at h1
      show dget (kv :: (t ++ d2)) k = none
      rw [dget, if_neg hk]
      exact ih h1

theorem dset_append {β : Type} (d : Dict β) (k : String) (v : β)
    (h : dget d k = none) : dset d k v = d ++ [(k, v)] := by
  induction d with
  | nil => rfl
  | cons kv t ih =>
    simp only [dget] at h
    by_cases hk : kv.1 = k
    · rw [if_pos hk] at h
      exact absurd h (by simp)
    · rw [if_neg hk] at h
      simp [dset, hk, ih h]

theorem foldl_dset_append {β : Type} (l : List (String × β)) (init : Dict β)
    (hn : (dkeys l).Nodup) (hd : ∀ k ∈ dkeys l, dget init k = none) :
    l.foldl (fun d kv => dset d kv.1 kv.2) init = init ++ l := by
  induction l generalizing init with
  | nil => simp
  | cons kv t ih =>
    simp only [List.foldl_cons]
    have h0 : dget init kv.1 = none := hd kv.1 (by simp [dkeys])
    rw [dset_append init kv.1 kv.2 h0]
    have hcons : dkeys (kv :: t) = kv.1 :: dkeys t := by simp [dkeys]
    rw [hcons] at hn
    have hn' : (dkeys t).Nodup := (List.nodup_cons.mp hn).2
    have hnm : kv.1 ∉ dkeys t := (List.nodup_cons.mp hn).1
    have hd' : ∀ k ∈ dkeys t, dget (init ++ [(kv.1, kv.2)]) k = none := by
      intro k hk
      apply dget_append_none
      · exact hd k (by simp [dkeys] at hk ⊢; exact Or.inr hk)
      · have hkk : kv.1 ≠ k := fun he => hnm (he ▸ hk)
        simp [dget, hkk]
    rw [ih _ hn' hd']
    simp

theorem foldl_buildGStep_all_linked (l : List (String × GPerson)) (acc : GIndex)
    (h : ∀ kp ∈ l, strStartsWith kp.1 "people/" = false) :
    l.foldl buildGStep acc =
      ⟨acc.g_by_fp, acc.g_unlinked,
        l.foldl (fun d kv => dset d kv.1 kv.2) acc.g_linked⟩ := by
  induction l generalizing acc with
  | nil => rfl
  | cons kp t ih =>
    simp only [List.foldl_cons]
    have hstep : buildGStep acc kp = { acc with g_linked := dset acc.g_linked kp.1 kp.2 } := by
      simp [buildGStep, h kp (by simp)]
    rw [hstep, ih _ (fun x hx => h x (by simp [hx]))]

theorem buildGIndex_all_linked (g : Dict GPerson)
    (hn : (dkeys g).Nodup)
    (h : ∀ kp ∈ g, strStartsWith kp.1 "people/" = false) :
    buildGIndex g = ⟨[], [], g⟩ := by
  unfold buildGIndex
  rw [foldl_buildGStep_all_linked g ⟨[], [], []⟩ h]
  rw [foldl_dset_append g [] hn (by intro k _; rfl)]
  rfl

theorem foldl_buildCStep_known (state : Dict LinkRow) (gl : Dict GPerson)
    (l : List (String × CCard)) (acc : CIndex)
    (h : ∀ ud ∈ l, dmem state ud.1 = true) :
    l.foldl (buildCStep state gl) acc = acc := by
  induction l generalizing acc with
  | nil => rfl
  | cons ud t ih =>
    simp only [List.foldl_cons]
    have hstep : buildCStep state gl acc ud = acc := by
      simp [buildCStep, h ud (by simp)]
    rw [hstep]
    exact ih _ (fun x hx => h x (by simp [hx]))

theorem syncOne_skip (rm : Remote) (state : Dict LinkRow) (gl : Dict GPerson)
    (c : Dict CCard) (acc : LoopAcc) (uid : String)
    (srow : LinkRow) (gp : GPerson) (cd : CCard)
    (hs : dget state uid = some srow) (hg : dget gl uid = some gp)
    (hc : dget c uid = some cd)
    (he1 : gp.etag = srow.etag_google) (he2 : cd.etag = srow.etag_carddav) :
    syncOne false rm state gl c acc uid =
      { acc with stats := { acc.stats with skipped := acc.stats.skipped + 1 } } := by
  simp [syncOne, hs, hg, hc, he1, he2]

theorem foldl_syncOne_skip (rm : Remote) (state : Dict LinkRow) (gl : Dict GPerson)
    (c : Dict CCard) (uids : List String) (acc : LoopAcc)
    (h : ∀ uid ∈ uids, inSyncAt state gl c uid) :
    uids.foldl (syncOne false rm state gl c) acc =
      { acc with stats := { acc.stats with skipped := acc.stats.skipped + uids.length } } := by
  induction uids generalizing acc with
  | nil => simp
  | cons u t ih =>
    obtain ⟨h1, h2, h3, h4, h5⟩ := h u (by simp)
    obtain ⟨srow, hs⟩ := Option.isSome_iff_exists.mp h1
    obtain ⟨gp, hg⟩ := Option.isSome_iff_exists.mp h2
    obtain ⟨cd, hcc⟩ := Option.isSome_iff_exists.mp h3
    rw [hs, hg] at h4
    rw [hs, hcc] at h5
    simp only [Option.map_some'] at h4 h5
    have he1 : gp.etag = srow.etag_google := by
      injection h4 with h4'
      exact h4'.symm
    have he2 : cd.etag = srow.etag_carddav := by
      injection h5 with h5'
      exact h5'.symm
    simp only [List.foldl_cons]
    rw [syncOne_skip rm state gl c acc u srow gp cd hs hg hcc he1 he2]
    rw [ih _ (fun x hx => h x (by simp [hx]))]
    simp only [List.length_cons, LoopAcc.mk.injEq, Stats.mk.injEq, and_true, true_and]
    omega

theorem mem_dedupKeys_aux (l : List String) (acc : List String) (k : String) :
    k ∈ l.foldl (fun acc k => if k ∈ acc then acc else acc ++ [k]) acc ↔
      k ∈ acc ∨ k ∈ l := by
  induction l generalizing acc with
  | nil => simp
  | cons a t ih =>
    simp only [List.foldl_cons]
    by_cases ha : a ∈ acc
    · rw [if_pos ha, ih]
      constructor
      · rintro (h | h)
        · exact Or.inl h
        · exact Or.inr (List.mem_cons_of_mem a h)
      · rintro (h | h)
        · exact Or.inl h
        · rcases List.mem_cons.mp h with rfl | h2
          · exact Or.inl ha
          · exact Or.inr h2
    · rw [if_neg ha, ih]
      simp only [List.mem_append, List.mem_singleton, List.mem_cons]
      tauto

theorem mem_dedupKeys (l : List String) (k : String) :
    k ∈ dedupKeys l ↔ k ∈ l := by
  unfold dedupKeys
  rw [mem_dedupKeys_aux]
  simp

theorem with_retry_triggered (f : Nat → Attempt) (b : Breaker) (h : b.triggered = true) :
    with_retry f b = ⟨RResult.noneR, b, 0, 0⟩ := by
  simp [with_retry, h]

theorem runOpsAux_of_triggered (ops : List (Nat → Attempt)) (idx : Nat) (acc : RunAcc)
    (h : acc.b.triggered = true) : runOpsAux ops idx acc = acc := by
  induction ops generalizing idx acc with
  | nil => rfl
  | cons f rest ih =>
    rw [runOpsAux, with_retry_triggered f acc.b h]
    simpa using ih (idx + 1) acc h

theorem runOpsAux_append (l1 l2 : List (Nat → Attempt)) (idx : Nat) (acc : RunAcc) :
    runOpsAux (l1 ++ l2) idx acc = runOpsAux l2 (idx + l1.length) (runOpsAux l1 idx acc) := by
  induction l1 generalizing idx acc with
  | nil => simp [runOpsAux]
  | cons f rest ih =>
    simp only [List.cons_append, runOpsAux, List.length_cons, List.append_eq]
    rw [ih]
    congr 1
    omega

/-! ## Claim theorems -/

/-- C1 counterexample.  The claim fails on the code in two ways.
(a) With a 50-entry store and both snapshots empty, every stored identifier
is missing (50/50 > 0.20) and the store has "at least the minimum number of
entries (50)", yet the run does not abort (the source requires strictly
more than 50 entries) and it empties the link state store.
(b) With 51 stored entries all missing and one unlinked fingerprint match,
the guard condition holds and the run does abort, but a remote write (the
matching-phase anchor update) and a store write have already been
performed, so the store is not left as it was loaded. -/
theorem C1_counterexample :
    (state50.length = 50 ∧
      (stateUidsGone state50 [] []).length * safetyDeletePctDen >
        state50.length * safetyDeletePctNum ∧
      (runSync false rm0 state50 [] []).aborted = false ∧
      (runSync false rm0 state50 [] []).db = [] ∧
      state50 ≠ []) ∧
    (state51.length = 51 ∧
      (runSync false rm0 state51 [("people/x", person8)] [("cu", card8)]).aborted = true ∧
      (runSync false rm0 state51 [("people/x", person8)]
          [("cu", card8)]).events.filter Ev.isRemoteWrite ≠ [] ∧
      (runSync false rm0 state51 [("people/x", person8)] [("cu", card8)]).db ≠ state51) := by
  exact ⟨by decide, by decide⟩

/-- C2 counterexample.  For a recurring task checked off in Notion whose
repetition rule yields no further occurrence, the due date written to both
sides is one day past the run date (`2026-10-13`), not one day past the
prior due date (`2020-01-02`) as the claim states (the prior due date of
`t0` is `2020-01-01`). -/
theorem C2_counterexample :
    (notionToCaldavStep noOcc today0 ["Lista"] "" t0).1 =
      [VEv.caldavWrite "uid0" (build_ical_todo
          { t0 with due := some "2026-10-13", status := some "In corso", completato := false }),
        VEv.notionUpdate "pid" "Not started" (some "2026-10-13")] ∧
    t0.due = some "2020-01-01" ∧
    ("2026-10-13" : String) ≠ "2020-01-02" := by
  exact ⟨by decide, by decide, by decide⟩

/-- C4 counterexample.  Two unlinked CardDAV cards `u1` (seen first) and
`u2` (seen second) share a fingerprint with one unlinked Google person.
The matching phase pairs the last-seen card `u2` (link row written for
`u2`, none for `u1`) and leaves the first-seen `u1` unlinked — the claim
states the first-seen record is the one paired. -/
theorem C4_counterexample :
    fingerprint_from_vcard cardDup1.vcard = fingerprint_from_vcard cardDup2.vcard ∧
    (matchStage false rm0 [] [("people/b", personB)]
        [("u1", cardDup1), ("u2", cardDup2)]).c_unlinked = ["u1"] ∧
    (dget (matchStage false rm0 [] [("people/b", personB)]
        [("u1", cardDup1), ("u2", cardDup2)]).db "u2").isSome = true ∧
    dget (matchStage false rm0 [] [("people/b", personB)]
        [("u1", cardDup1), ("u2", cardDup2)]).db "u1" = none := by
  exact ⟨by decide, by decide, by decide, by decide⟩

/-- C6 counterexample.  For a Google person with an email but no display
name, `google_to_vcard` substitutes the placeholder name `"Senza Nome"`,
so the two fingerprint functions disagree on the same logical contact. -/
theorem C6_counterexample :
    fingerprint_from_vcard (google_to_vcard p6 "u6") ≠ fingerprint_from_google p6 ∧
    fingerprint_from_google p6 = "|x@y.com|" ∧
    fingerprint_from_vcard (google_to_vcard p6 "u6") = "senza nome|x@y.com|" := by
  exact ⟨by decide, by decide, by decide⟩

/-- C7 counterexample.  `normalize_phone` keeps every `+`, wherever it
occurs, so the phone component of a fingerprint is not "digits and a
leading plus sign only": the card `v7` with phone `"1+2"` fingerprints to
`"||1+2"`, whose phone component has an interior plus. -/
theorem C7_counterexample :
    fingerprint_from_vcard v7 = "||1+2" ∧
    leadingPlusDigitsOnly (normalize_phone "1+2") = false := by
  exact ⟨by decide, by decide⟩

/-- C8 (code bug).  With the dry-run flag set and one unlinked
fingerprint-matching pair on each side, the full classification still runs
(the pair is classified and skipped) and no remote write is performed, but
the matching phase writes the link row into the persisted state store —
the `db.execute` at the end of the match loop is the only write in
`sync()` not guarded by `DRY_RUN`, so the store after the dry run differs
from the store before it, contradicting the claim (and the evident intent
of the flag). -/
theorem C8_dry_run_db_write :
    (runSync true rm0 [] [("people/x", person8)] [("cu", card8)]).events = [Ev.dbWrite "cu"] ∧
    (runSync true rm0 [] [("people/x", person8)]
        [("cu", card8)]).events.filter Ev.isRemoteWrite = [] ∧
    (runSync true rm0 [] [("people/x", person8)] [("cu", card8)]).db ≠ [] ∧
    (runSync true rm0 [] [("people/x", person8)] [("cu", card8)]).stats.skipped = 1 := by
  exact ⟨by decide, by decide, by decide, by decide⟩

/-- C9 counterexample.  Four wrapped writes that fail transiently on every
attempt reach the 10-failed-attempts threshold and trip the breaker in the
first sync direction; yet the next wrapped write of the same run, issued
in the second direction, is executed (one invocation, persisted result)
because `sync()` resets the breaker between the two directions.  The claim
as stated ("every subsequent write attempt in the same run is skipped")
therefore fails. -/
theorem C9_counterexample :
    (twoDirectionRun (List.replicate 4 transientOp) [okOp]).1.b.triggered = true ∧
    (twoDirectionRun (List.replicate 4 transientOp) [okOp]).2.invoked = 1 ∧
    (twoDirectionRun (List.replicate 4 transientOp) [okOp]).2.persisted = [0] := by
  exact ⟨by decide, by decide, by decide⟩

/-- C9 (amended).  Within one sync direction, once the error counter has
reached the threshold and tripped the breaker, appending any further
wrapped writes changes nothing: the run result is identical — no wrapped
operation is invoked (the invocation count is unchanged), no retry delay
is added (the slept total is unchanged), no retries are consumed, each
wrapper call returns the failure/no-op result immediately, and the set of
results persisted before the trip is exactly preserved.  The breaker is
reset between the two sync directions of a run, so containment holds per
direction, not across the whole run. -/
theorem C9_breaker_containment (pre post : List (Nat → Attempt))
    (h : (runOps breaker0 pre).b.triggered = true) :
    runOps breaker0 (pre ++ post) = runOps breaker0 pre := by
  unfold runOps at h ⊢
  rw [runOpsAux_append]
  exact runOpsAux_of_triggered post _ _ h

/-- C9 witness: after four wrapped writes with three transient failures
each (twelve failed attempts, tripping at the tenth), a subsequent
successful-in-principle write changes nothing in the same direction. -/
theorem C9_witness :
    (runOps breaker0 (List.replicate 4 transientOp)).b.triggered = true ∧
    runOps breaker0 (List.replicate 4 transientOp ++ [okOp]) =
      runOps breaker0 (List.replicate 4 transientOp) :=
  ⟨by decide, C9_breaker_containment (List.replicate 4 transientOp) [okOp] (by decide)⟩

/-- C4 (amended).  When several eligible unlinked records on the CardDAV
side share a fingerprint, the record paired by the matching phase is the
last-seen one: a later eligible record overrides any earlier entry in the
fingerprint map.  Every duplicate that ends up unmatched is left alone by
the matching phase — its key in the link state store is untouched. -/
theorem C4_matching_last_seen :
    (∀ (state : Dict LinkRow) (g_linked : Dict GPerson) (cs : Dict CCard)
        (u : String) (d : CCard),
      dmem state u = false → dmem g_linked u = false →
      fingerprint_from_vcard d.vcard ≠ "" →
      dget (buildCIndex state g_linked (cs ++ [(u, d)])).c_by_fp
          (fingerprint_from_vcard d.vcard) = some (u, d)) ∧
    (∀ (dry : Bool) (rm : Remote) (cc : Dict CCard)
        (matched : Dict (String × GPerson)) (start : MatchOut) (uid : String),
      dget matched uid = none →
      dget (applyMatches dry rm cc matched start).db uid = dget start.db uid) := by
  constructor
  · intro state g_linked cs u d h1 h2 h3
    unfold buildCIndex
    rw [List.foldl_append]
    simp only [List.foldl_cons, List.foldl_nil, buildCStep, h1, h2, Bool.not_false,
      Bool.and_self, if_true, if_neg h3]
    exact dget_dset_self _ _ _
  · intro dry rm cc matched start uid
    induction matched generalizing start with
    | nil => intro _; rfl
    | cons m rest ih =>
      intro h
      have hne : m.1 ≠ uid := by
        intro he
        simp [dget, he] at h
      have hrest : dget rest uid = none := by
        simpa [dget, hne] using h
      have ih' : ∀ st : MatchOut,
          dget (applyMatches dry rm cc rest st).db uid = dget st.db uid :=
        fun st => ih st hrest
      unfold applyMatches at ih' ⊢
      rw [List.foldl_cons]
      cases hcc : dget cc m.1 with
      | none =>
        have hstep : applyMatchStep dry rm cc start m = start := by
          simp [applyMatchStep, hcc]
        rw [hstep]
        exact ih' start
      | some c_data =>
        have hstep : (applyMatchStep dry rm cc start m).db =
            dset start.db m.1
              ⟨m.2.1, c_data.href,
                if dry then m.2.2.etag
                else rm.gUpdateEtag m.2.1
                  { vcard_to_google c_data.vcard m.1 with etag := some m.2.2.etag },
                c_data.etag, fingerprint_from_vcard c_data.vcard⟩ := by
          simp [applyMatchStep, hcc]
        refine (ih' _).trans ?_
        rw [hstep]
        exact dget_dset_ne _ _ _ _ hne

/-- C4 witness: the override rule and the untouched-key rule evaluated at
the duplicate pair `u1`, `u2`. -/
theorem C4_witness :
    ((dmem ([] : Dict LinkRow) "u2" = false ∧ dmem ([] : Dict GPerson) "u2" = false ∧
      fingerprint_from_vcard cardDup2.vcard ≠ "") ∧
      dget (buildCIndex [] [] ([("u1", cardDup1)] ++ [("u2", cardDup2)])).c_by_fp
          (fingerprint_from_vcard cardDup2.vcard) = some ("u2", cardDup2)) ∧
    (dget ([("bob||", ("u2", personB))] : Dict (String × GPerson)) "u1" = none ∧
      dget (applyMatches false rm0 [("u1", cardDup1), ("u2", cardDup2)]
          [("bob||", ("u2", personB))] ⟨[], [], [], [], []⟩).db "u1" =
        dget (⟨[], [], [], [], []⟩ : MatchOut).db "u1") :=
  ⟨⟨⟨by decide, by decide, by decide⟩,
      C4_matching_last_seen.1 [] [] [("u1", cardDup1)] "u2" cardDup2
        (by decide) (by decide) (by decide)⟩,
    ⟨by decide,
      C4_matching_last_seen.2 false rm0 [("u1", cardDup1), ("u2", cardDup2)]
        [("bob||", ("u2", personB))] ⟨[], [], [], [], []⟩ "u1" (by decide)⟩⟩

/-- C1 (amended).  Whenever, after the matching phase, the link state
store has strictly more than 50 entries and the number of stored
identifiers absent from both current snapshots exceeds 0.20 of the store
size, the run aborts before performing any reconciliation-phase write: the
only events of the run are the matching-phase events followed by the abort
log, and the store is left exactly as it stood at the end of the matching
phase.  (Matching-phase anchor writes precede the guard and may already
have been performed; at exactly 50 entries the guard does not fire.) -/
theorem C1_safety_guard (dry : Bool) (rm : Remote) (state : Dict LinkRow)
    (g_contacts : Dict GPerson) (c_contacts : Dict CCard)
    (h : guardCond (matchStage dry rm state g_contacts c_contacts).db
        (matchStage dry rm state g_contacts c_contacts).g_linked c_contacts = true) :
    runSync dry rm state g_contacts c_contacts =
      { events := (matchStage dry rm state g_contacts c_contacts).events ++
          [Ev.abortLog
            (stateUidsGone (matchStage dry rm state g_contacts c_contacts).db
              (matchStage dry rm state g_contacts c_contacts).g_linked c_contacts).length
            (matchStage dry rm state g_contacts c_contacts).db.length]
      , db := (matchStage dry rm state g_contacts c_contacts).db
      , aborted := true, stats := stats0 } := by
  simp only [runSync, h, if_true]

/-- C1 witness: the amended guard behaviour at the 51-entry store with one
matched pair. -/
theorem C1_witness :
    guardCond (matchStage false rm0 state51 [("people/x", person8)] [("cu", card8)]).db
        (matchStage false rm0 state51 [("people/x", person8)] [("cu", card8)]).g_linked
        [("cu", card8)] = true ∧
    runSync false rm0 state51 [("people/x", person8)] [("cu", card8)] =
      { events := (matchStage false rm0 state51 [("people/x", person8)] [("cu", card8)]).events ++
          [Ev.abortLog
            (stateUidsGone
              (matchStage false rm0 state51 [("people/x", person8)] [("cu", card8)]).db
              (matchStage false rm0 state51 [("people/x", person8)] [("cu", card8)]).g_linked
              [("cu", card8)]).length
            (matchStage false rm0 state51 [("people/x", person8)] [("cu", card8)]).db.length]
      , db := (matchStage false rm0 state51 [("people/x", person8)] [("cu", card8)]).db
      , aborted := true, stats := stats0 } :=
  ⟨by decide,
    C1_safety_guard false rm0 state51 [("people/x", person8)] [("cu", card8)] (by decide)⟩

/-- C3 (confirmed).  For every identifier whose stored link and both
current records exist and whose two current change tokens both differ from
the stored tokens, the reconciliation step logs a conflict and propagates
the authoritative side (Google) to the other side: the one CardDAV write
it performs carries `google_to_vcard gp uid`, a function of the pre-run
Google record alone — no content merge — and the link row is updated with
the new tokens. -/
theorem C3_conflict_google_wins (rm : Remote) (state : Dict LinkRow)
    (g_linked : Dict GPerson) (c_contacts : Dict CCard) (acc : LoopAcc) (uid : String)
    (srow : LinkRow) (gp : GPerson) (cd : CCard)
    (hs : dget state uid = some srow) (hg : dget g_linked uid = some gp)
    (hc : dget c_contacts uid = some cd)
    (hgc : gp.etag ≠ srow.etag_google) (hcc : cd.etag ≠ srow.etag_carddav) :
    syncOne false rm state g_linked c_contacts acc uid =
      { events := acc.events ++
          [Ev.conflictLog uid, Ev.cPut cd.href (google_to_vcard gp uid), Ev.dbWrite uid]
      , db := dbUpdateEtagsHref acc.db uid gp.etag
          (rm.cPutEtag cd.href (google_to_vcard gp uid)) cd.href
      , stats := { acc.stats with c_updated := acc.stats.c_updated + 1 } } := by
  have h1 : ¬(gp.etag = srow.etag_google ∧ cd.etag = srow.etag_carddav) := fun h => hgc h.1
  have h2 : ¬(gp.etag ≠ srow.etag_google ∧ cd.etag = srow.etag_carddav) := fun h => hcc h.2
  have h3 : ¬(cd.etag ≠ srow.etag_carddav ∧ gp.etag = srow.etag_google) := fun h => hgc h.2
  simp [syncOne, hs, hg, hc, if_neg h1, if_neg h2, if_neg h3]

/-- C3 witness: the conflict rule evaluated at a concrete stale triple. -/
theorem C3_witness :
    (dget [("u3", srow3)] "u3" = some srow3 ∧
      dget [("u3", gp3)] "u3" = some gp3 ∧
      dget [("u3", cd3)] "u3" = some cd3 ∧
      gp3.etag ≠ srow3.etag_google ∧ cd3.etag ≠ srow3.etag_carddav) ∧
    syncOne false rm0 [("u3", srow3)] [("u3", gp3)] [("u3", cd3)]
        ⟨[], [("u3", srow3)], stats0⟩ "u3" =
      { events := ([] : List Ev) ++
          [Ev.conflictLog "u3", Ev.cPut cd3.href (google_to_vcard gp3 "u3"), Ev.dbWrite "u3"]
      , db := dbUpdateEtagsHref [("u3", srow3)] "u3" gp3.etag
          (rm0.cPutEtag cd3.href (google_to_vcard gp3 "u3")) cd3.href
      , stats := { stats0 with c_updated := stats0.c_updated + 1 } } :=
  ⟨⟨by decide, by decide, by decide, by decide, by decide⟩,
    C3_conflict_google_wins rm0 [("u3", srow3)] [("u3", gp3)] [("u3", cd3)]
      ⟨[], [("u3", srow3)], stats0⟩ "u3" srow3 gp3 cd3
      (by decide) (by decide) (by decide) (by decide) (by decide)⟩

/-- C2 (amended).  For every Notion task with a repetition rule and the
completion box checked, when its list maps to a known calendar the handler
issues exactly one CalDAV write and one Notion properties update: the
CalDAV payload is the task with the due date advanced to the next
occurrence the rule engine computes from the rule and the prior due date
(or, when the rule yields no further occurrence, to one day past the run
date), with a non-terminal `STATUS:NEEDS-ACTION` — never a completed
status — and the Notion update resets the completion flag to
`Not started` and writes the same advanced due date.  No archive or
delete is issued. -/
theorem C2_recurring_completion (nextOcc : String → Option String → Option String)
    (today : PyDate) (calendars : List String) (cm : String) (t : NotionTask) (cal : String)
    (hc : t.completato = true) (hr : t.rrule ≠ "") (hu : t.uid ≠ "")
    (hcal : findCalendarByName calendars t.list_name = some cal) :
    notionToCaldavStep nextOcc today calendars cm t =
      ([VEv.caldavWrite t.uid (build_ical_todo
          (advanceTask t ((nextOcc t.rrule t.due).getD (isoOfDate (addOneDay today))))),
        VEv.notionUpdate t.page_id "Not started"
          (some ((nextOcc t.rrule t.due).getD (isoOfDate (addOneDay today))))],
        StepTag.recurringCompleted) ∧
    icalStatusOf
        (advanceTask t ((nextOcc t.rrule t.due).getD (isoOfDate (addOneDay today)))) =
      "NEEDS-ACTION" := by
  constructor
  · simp only [notionToCaldavStep, if_neg hu, hc, if_pos hr, hcal, if_true]
    cases h : nextOcc t.rrule t.due <;> simp [h]
  · simp [icalStatusOf, advanceTask]

/-- C2 witness: the recurring-completion rule evaluated at a concrete
checked-off recurring task whose rule yields an occurrence. -/
theorem C2_witness :
    (t0.completato = true ∧ t0.rrule ≠ "" ∧ t0.uid ≠ "" ∧
      findCalendarByName ["Lista"] t0.list_name = some "Lista") ∧
    (notionToCaldavStep someOcc today0 ["Lista"] "" t0 =
      ([VEv.caldavWrite t0.uid (build_ical_todo
          (advanceTask t0 ((someOcc t0.rrule t0.due).getD (isoOfDate (addOneDay today0))))),
        VEv.notionUpdate t0.page_id "Not started"
          (some ((someOcc t0.rrule t0.due).getD (isoOfDate (addOneDay today0))))],
        StepTag.recurringCompleted) ∧
      icalStatusOf
          (advanceTask t0 ((someOcc t0.rrule t0.due).getD (isoOfDate (addOneDay today0)))) =
        "NEEDS-ACTION") :=
  ⟨⟨by decide, by decide, by decide, by decide⟩,
    C2_recurring_completion someOcc today0 ["Lista"] "" t0 "Lista"
      (by decide) (by decide) (by decide) (by decide)⟩

/-- C5 (confirmed).  A second run over a state a successful run left
behind, with no intervening remote changes, performs zero writes: when
every Google key is a linked vCard UID and every identifier in the union
of state, Google and CardDAV keys is in sync (all three records present,
stored tokens equal to the current ones), the run emits no events at all —
no remote write, no store write, no conflict — leaves the link state store
exactly as loaded, does not abort, and classifies every identifier of the
union as a skip. -/
theorem C5_second_run_no_writes (rm : Remote) (state : Dict LinkRow)
    (g : Dict GPerson) (c : Dict CCard)
    (hng : (dkeys g).Nodup)
    (hgk : ∀ kp ∈ g, strStartsWith kp.1 "people/" = false)
    (hsg : ∀ uid ∈ dkeys state ++ dkeys g ++ dkeys c, inSyncAt state g c uid) :
    runSync false rm state g c =
      ⟨[], state, false, { stats0 with skipped := (allUids state g c).length }⟩ := by
  have hcall : ∀ ud ∈ c, dmem state ud.1 = true := by
    intro ud hud
    have hk : ud.1 ∈ dkeys c := List.mem_map_of_mem Prod.fst hud
    have h2 := hsg ud.1 (List.mem_append.mpr (Or.inr hk))
    exact h2.1
  have hbg : buildGIndex g = ⟨[], [], g⟩ := buildGIndex_all_linked g hng hgk
  have hbc : buildCIndex state g c = ⟨[], []⟩ :=
    foldl_buildCStep_known state g c ⟨[], []⟩ hcall
  have hm : matchStage false rm state g c = ⟨[], state, [], [], g⟩ := by
    simp only [matchStage, hbg, hbc]
    rfl
  have hgone : stateUidsGone state g c = [] := by
    unfold stateUidsGone
    rw [List.filter_eq_nil_iff]
    intro u hu
    have h2 := hsg u (List.mem_append.mpr (Or.inl (List.mem_append.mpr (Or.inl hu))))
    simp [dmem, h2.2.1]
  have hguard : guardCond state g c = false := by
    unfold guardCond
    rw [hgone]
    simp
  have hAll : ∀ uid ∈ allUids state g c, inSyncAt state g c uid := by
    intro uid hu
    exact hsg uid ((mem_dedupKeys (dkeys state ++ dkeys g ++ dkeys c) uid).mp hu)
  simp only [runSync, hm]
  rw [if_neg (by simp [hguard])]
  rw [foldl_syncOne_skip rm state g c (allUids state g c) ⟨[], state, stats0⟩ hAll]
  simp [stats0]

/-- C5 witness: the no-write second run evaluated at a consistent
one-identifier world. -/
theorem C5_witness :
    ((dkeys [("uw", personW)]).Nodup ∧
      (∀ kp ∈ [("uw", personW)], strStartsWith kp.1 "people/" = false) ∧
      (∀ uid ∈ dkeys [("uw", rowW)] ++ dkeys [("uw", personW)] ++ dkeys [("uw", cardW)],
        inSyncAt [("uw", rowW)] [("uw", personW)] [("uw", cardW)] uid)) ∧
    runSync false rm0 [("uw", rowW)] [("uw", personW)] [("uw", cardW)] =
      ⟨[], [("uw", rowW)], false,
        { stats0 with skipped :=
            (allUids [("uw", rowW)] [("uw", personW)] [("uw", cardW)]).length }⟩ :=
  ⟨⟨by decide, by decide, by decide⟩,
    C5_second_run_no_writes rm0 [("uw", rowW)] [("uw", personW)] [("uw", cardW)]
      (by decide) (by decide) (by decide)⟩

/-- C6 (amended).  For every Google person whose first name entry has a
non-blank display name, the fingerprint computed from the CardDAV
representation produced by `google_to_vcard` equals the fingerprint
computed directly from the Google person: the name normalizes identically
(trimming is idempotent), and the email and phone pools normalize to the
same sorted lists on both sides.  When the display name is missing or
blank the placeholder `"Senza Nome"` breaks the equality. -/
theorem C6_fingerprint_side_independent (p : GPerson) (uid : String)
    (nm : GName) (rest : List GName)
    (hn : p.names = nm :: rest) (hd : pyStrip nm.displayName ≠ "") :
    fingerprint_from_vcard (google_to_vcard p uid) = fingerprint_from_google p := by
  unfold fingerprint_from_vcard fingerprint_from_google google_to_vcard
  rw [hn]
  simp only [List.headD_cons, if_neg hd, List.map_map]
  rw [pyStrip_idem]
  rfl

/-- C6 witness: side independence evaluated at a named concrete person. -/
theorem C6_witness :
    (personW.names = [(⟨"Alice", "", ""⟩ : GName)] ∧
      pyStrip (GName.mk "Alice" "" "").displayName ≠ "") ∧
    fingerprint_from_vcard (google_to_vcard personW "uw") = fingerprint_from_google personW :=
  ⟨⟨by decide, by decide⟩,
    C6_fingerprint_side_independent personW "uw" ⟨"Alice", "", ""⟩ []
      (by decide) (by decide)⟩

/-- C7 (amended).  For every record, the fingerprint is exactly the
spec-side format: the pipe-delimited join, in order, of the lower-cased
whitespace-trimmed name, the lexicographically lowest lower-cased email
and the lexicographically lowest normalized phone — where normalization
removes every character other than digits and plus signs, keeping plus
signs wherever they occur — and the empty string when no identity-bearing
field is populated after normalization. -/
theorem C7_fingerprint_format (v : VCard) :
    fingerprint_from_vcard v = fingerprintVcardSpec v := by
  unfold fingerprint_from_vcard fingerprintVcardSpec
  simp only [firstOrEmpty_eq_head?, head?_sortStrings, lowestString_eq_getD]
  cases hf : v.fn with
  | none => rfl
  | some f => rfl

/-- C10 (amended).  The round trip holds on all four labels and
`map_priority` is total: `None` and non-numeric inputs yield `"Nessuna"`,
and every input yields one of the four labels — but out-of-range numeric
inputs are mapped through the threshold chain (≤ 2 to `"Alta"`, ≤ 5 to
`"Media"`, otherwise `"Bassa"`) rather than to `"Nessuna"`. -/
theorem C10_priority_round_trip :
    (∀ x ∈ (["Alta", "Media", "Bassa", "Nessuna"] : List String),
      map_priority (some (reverse_priority x)) = x) ∧
    map_priority none = "Nessuna" ∧
    (∀ s : String, pyParseInt s = none → map_priority (some s) = "Nessuna") ∧
    (∀ o : Option String,
      map_priority o ∈ (["Nessuna", "Alta", "Media", "Bassa"] : List String)) := by
  refine ⟨by decide, rfl, ?_, ?_⟩
  · intro s h
    simp only [map_priority, h]
  · intro o
    cases o with
    | none => simp [map_priority]
    | some s =>
      simp only [map_priority]
      cases pyParseInt s with
      | none => simp
      | some p =>
        by_cases h0 : p = 0
        · simp [h0]
        · by_cases h2 : p ≤ 2
          · simp [h0, h2]
          · by_cases h5 : p ≤ 5
            · simp [h0, h2, h5]
            · simp [h0, h2, h5]

/-- C10 witness: a non-numeric priority string maps to `"Nessuna"`. -/
theorem C10_witness :
    pyParseInt "abc" = none ∧ map_priority (some "abc") = "Nessuna" :=
  ⟨by decide, C10_priority_round_trip.2.2.1 "abc" (by decide)⟩

/-- C10 counterexample.  `map_priority` is total but does not send
out-of-range numeric inputs to `"Nessuna"`: `100` (outside iCal's 0–9
priority range) maps to `"Bassa"` and `-3` maps to `"Alta"`. -/
theorem C10_counterexample :
    map_priority (some "100") = "Bassa" ∧ map_priority (some "-3") = "Alta" ∧
    map_priority (some "100") ≠ "Nessuna" ∧ map_priority (some "-3") ≠ "Nessuna" := by
  exact ⟨by decide, by decide, by decide, by decide⟩

end Syncer
